import Mathlib

/-!
Verification of the excel-to-ocr column-slicing pipeline.

Shallow embedding of the repository's Python sources:
`column_slicer.py`, `markdown_exporter.py`, `html_renderer.py`,
`pdf_exporter.py`, `pipeline.py`.  Machine floats carried in table cells
are embedded as their exact rational values; the stateful while-loop of
`ColumnSlicer.slice_dataframe` is embedded with explicit fuel so that
non-termination (for a non-positive page width) is observable as `none`.
-/

set_option maxHeartbeats 1000000

/-- A table cell value: `na` is any missing/null value (`pd.isna` true);
floats carry their exact rational value; the rest carry their payload. -/
inductive CellValue where
  | na : CellValue
  | floatVal : ℚ → CellValue
  | intVal : ℤ → CellValue
  | strVal : String → CellValue
  | boolVal : Bool → CellValue
deriving DecidableEq

/-- A pandas DataFrame: ordered named columns and rows of cells
(row `i`, column `j` is `rows[i][j]`). -/
structure DataFrame where
  columns : List String
  rows : List (List CellValue)
deriving DecidableEq

/-- `df.iloc[:, a:b].copy()`: columns `a..b-1` of the header and of every row. -/
def ilocCols (df : DataFrame) (a b : Nat) : DataFrame :=
  { columns := (df.columns.drop a).take (b - a)
  , rows := df.rows.map (fun r => (r.drop a).take (b - a)) }

/-- One iteration of `ColumnSlicer.slice_dataframe`'s loop body: the appended
triple `(sliced_df, start_idx, end_idx - 1)` with
`end_idx = min (start_idx + max_columns_per_page) total_columns`. -/
def sliceAt (M : Nat) (df : DataFrame) (start : Nat) : DataFrame × Nat × Nat :=
  (ilocCols df start (min (start + M) df.columns.length), start,
    min (start + M) df.columns.length - 1)

/-- The `while start_idx < total_columns` loop of `ColumnSlicer.slice_dataframe`,
with explicit fuel bounding the number of iterations: `none` means the loop has
not finished within `fuel` iterations. -/
def sliceLoop (M : Nat) (df : DataFrame) : Nat → Nat → Option (List (DataFrame × Nat × Nat))
  | 0, start => if start < df.columns.length then none else some []
  | fuel + 1, start =>
    if start < df.columns.length then
      (sliceLoop M df fuel (min (start + M) df.columns.length)).map
        (fun rest => sliceAt M df start :: rest)
    else some []

/-- `ColumnSlicer.slice_dataframe`: returns `[]` for a table with no columns,
otherwise runs the slicing loop.  The fuel `df.columns.length` is sufficient
whenever `max_columns_per_page ≥ 1`; for `max_columns_per_page = 0` the Python
loop never terminates and the embedding returns `none` for every fuel. -/
def slice_dataframe (M : Nat) (df : DataFrame) : Option (List (DataFrame × Nat × Nat)) :=
  if df.columns.length = 0 then some []
  else sliceLoop M df df.columns.length 0

/-- The expression `(total_columns + max - 1) // max` of `get_slice_info`. -/
def ceilDiv (a m : Nat) : Nat := (a + m - 1) / m

/-- The dictionary returned by `ColumnSlicer.get_slice_info`. -/
structure SliceInfo where
  total_columns : Nat
  max_columns_per_page : Nat
  num_pages : Nat
  last_page_columns : Nat
deriving DecidableEq

/-- `ColumnSlicer.get_slice_info`.  Python's `total_columns % max or max`
evaluates to the remainder when it is nonzero and to `max` otherwise
(also when `total_columns = 0`). -/
def get_slice_info (M : Nat) (df : DataFrame) : SliceInfo :=
  { total_columns := df.columns.length
  , max_columns_per_page := M
  , num_pages := ceilDiv df.columns.length M
  , last_page_columns :=
      if df.columns.length % M = 0 then M else df.columns.length % M }

theorem ceilDiv_zero_left {m : Nat} (hm : 1 ≤ m) : ceilDiv 0 m = 0 := by
  unfold ceilDiv
  exact Nat.div_eq_of_lt (by omega)

theorem ceilDiv_step {a m : Nat} (hm : 1 ≤ m) (ha : 1 ≤ a) :
    ceilDiv a m = ceilDiv (a - m) m + 1 := by
  unfold ceilDiv
  rcases Nat.le_total a m with h | h
  · have h1 : a + m - 1 = (a - 1) + m := by omega
    have h2 : a - m = 0 := by omega
    rw [h1, h2, Nat.add_div_right _ (by omega), Nat.div_eq_of_lt (by omega),
      Nat.div_eq_of_lt (by omega)]
  · have h1 : a + m - 1 = ((a - m) + m - 1) + m := by omega
    rw [h1, Nat.add_div_right _ (by omega)]

theorem sliceLoop_eq (M : Nat) (df : DataFrame) (hM : 1 ≤ M) :
    ∀ fuel start, df.columns.length ≤ start + fuel →
      sliceLoop M df fuel start =
        some ((List.range (ceilDiv (df.columns.length - start) M)).map
          (fun k => sliceAt M df (start + k * M))) := by
  intro fuel
  induction fuel with
  | zero =>
    intro start h
    have h0 : df.columns.length - start = 0 := by omega
    simp [sliceLoop, h0, ceilDiv_zero_left hM, Nat.not_lt.mpr (by omega : df.columns.length ≤ start)]
  | succ fuel ih =>
    intro start h
    by_cases hlt : start < df.columns.length
    · rcases Nat.lt_or_ge df.columns.length (start + M) with hgt | hle
      · have hmin : min (start + M) df.columns.length = df.columns.length :=
          Nat.min_eq_right (by omega)
        have hrec := ih df.columns.length (by omega)
        rw [sliceLoop, if_pos hlt, hmin, hrec]
        rw [Nat.sub_self, ceilDiv_zero_left hM]
        have hone : ceilDiv (df.columns.length - start) M = 1 := by
          rw [ceilDiv_step hM (by omega)]
          have h0 : df.columns.length - start - M = 0 := by omega
          rw [h0, ceilDiv_zero_left hM]
        rw [hone]
        simp [sliceAt, hmin, List.range_succ]
      · have hmin : min (start + M) df.columns.length = start + M :=
          Nat.min_eq_left hle
        have hrec := ih (start + M) (by omega)
        rw [sliceLoop, if_pos hlt, hmin, hrec, Option.map_some']
        congr 1
        have h1 : 1 ≤ df.columns.length - start := by omega
        conv_rhs => rw [ceilDiv_step hM h1]
        rw [List.range_succ_eq_map, List.map_cons, List.map_map]
        have hsub : df.columns.length - (start + M) = df.columns.length - start - M := by
          omega
        rw [hsub]
        congr 1
        · simp
        · apply List.map_congr_left
          intro k _
          simp only [Function.comp]
          congr 1
          rw [Nat.succ_eq_add_one]
          ring
    · rw [sliceLoop, if_neg hlt]
      have h0 : df.columns.length - start = 0 := by omega
      simp [h0, ceilDiv_zero_left hM]

theorem slice_dataframe_eq (M : Nat) (df : DataFrame) (hM : 1 ≤ M) :
    slice_dataframe M df =
      some ((List.range (ceilDiv df.columns.length M)).map
        (fun k => sliceAt M df (k * M))) := by
  unfold slice_dataframe
  by_cases h0 : df.columns.length = 0
  · rw [if_pos h0, h0, ceilDiv_zero_left hM]
    simp
  · rw [if_neg h0, sliceLoop_eq M df hM df.columns.length 0 (by omega)]
    simp

theorem le_ceilDiv_mul {C M : Nat} (hM : 1 ≤ M) : C ≤ ceilDiv C M * M := by
  unfold ceilDiv
  have hd := Nat.div_add_mod (C + M - 1) M
  have hmod : (C + M - 1) % M < M := Nat.mod_lt _ (by omega)
  have hcomm : (C + M - 1) / M * M = M * ((C + M - 1) / M) := Nat.mul_comm _ _
  omega

theorem mul_lt_of_lt_ceilDiv {C M k : Nat} (hM : 1 ≤ M) (hk : k < ceilDiv C M) :
    k * M < C := by
  by_contra hcon
  push_neg at hcon
  have hle : ceilDiv C M ≤ k := by
    unfold ceilDiv
    have h1 : C + M - 1 ≤ M - 1 + k * M := by omega
    calc (C + M - 1) / M ≤ (M - 1 + k * M) / M := Nat.div_le_div_right h1
    _ = (M - 1) / M + k := Nat.add_mul_div_right _ _ (by omega)
    _ = k := by rw [Nat.div_eq_of_lt (by omega)]; omega
  omega

theorem join_spans {M C : Nat} (hM : 1 ≤ M) :
    ∀ n start, C ≤ start + n * M →
      ((List.range n).map (fun k =>
        List.range' (start + k * M) (min (start + k * M + M) C - (start + k * M)))).flatten
        = List.range' start (C - start) := by
  intro n
  induction n with
  | zero =>
    intro start h
    have h0 : C - start = 0 := by omega
    simp [h0]
  | succ n ih =>
    intro start h
    have hexp : (n + 1) * M = n * M + M := by ring
    rw [List.range_succ_eq_map, List.map_cons, List.map_map, List.flatten_cons]
    have htail : (List.map ((fun k =>
        List.range' (start + k * M) (min (start + k * M + M) C - (start + k * M))) ∘ Nat.succ)
        (List.range n)).flatten = List.range' (start + M) (C - (start + M)) := by
      rw [← ih (start + M) (by omega)]
      congr 1
      apply List.map_congr_left
      intro k _
      simp only [Function.comp]
      have harg : start + Nat.succ k * M = start + M + k * M := by
        rw [Nat.succ_eq_add_one]; ring
      rw [harg]
    rw [htail]
    simp only [Nat.zero_mul, Nat.add_zero]
    rcases Nat.le_total (start + M) C with hle | hge
    · rw [Nat.min_eq_left hle]
      have hm : start + M - start = M := by omega
      rw [hm]
      have happ := List.range'_append start M (C - (start + M)) 1
      simp only [Nat.one_mul] at happ
      rw [happ]
      congr 1
      omega
    · rw [Nat.min_eq_right hge]
      have h2 : C - (start + M) = 0 := by omega
      rw [h2]
      simp

/-- The statement of claim C1 for one table and page width: the column spans of
`slice_dataframe`'s result concatenate (in emission order) to the original
column index sequence `[0, C-1]`, are in ascending order and contiguous, and
every slice preserves the row count, the row order (row `i` of a slice is the
projection of row `i` of the source) and the original column names of its span. -/
def SliceRoundtripProp (M : Nat) (df : DataFrame) : Prop :=
  ∃ l, slice_dataframe M df = some l ∧
    (l.map (fun s => List.range' s.2.1 (s.2.2 + 1 - s.2.1))).flatten
      = List.range df.columns.length ∧
    (∀ i j, (hi : i < l.length) → (hj : j < l.length) → i < j →
      l[i].2.2 < l[j].2.1) ∧
    (∀ k, (hk : k + 1 < l.length) → l[k + 1].2.1 = l[k].2.2 + 1) ∧
    (∀ s ∈ l, s.1.rows.length = df.rows.length ∧
      s.1.rows = df.rows.map (fun r => (r.drop s.2.1).take (s.2.2 + 1 - s.2.1)) ∧
      s.1.columns = (df.columns.drop s.2.1).take (s.2.2 + 1 - s.2.1))

theorem min_bounds_of_lt {C M k : Nat} (hM : 1 ≤ M) (hk : k * M < C) :
    k * M + 1 ≤ min (k * M + M) C ∧ min (k * M + M) C ≤ k * M + M ∧
      min (k * M + M) C ≤ C :=
  ⟨Nat.le_min.mpr ⟨by omega, hk⟩, Nat.min_le_left _ _, Nat.min_le_right _ _⟩

/-- C1: for every table and every `max_columns_per_page ≥ 1`, the slices of
`ColumnSlicer.slice_dataframe` have pairwise disjoint, contiguous, ascending
column spans whose concatenation in emission order is exactly `[0, C-1]`, and
each slice preserves the source's row count and row order. -/
theorem c1_slice_roundtrip (M : Nat) (df : DataFrame) (hM : 1 ≤ M) :
    SliceRoundtripProp M df := by
  refine ⟨_, slice_dataframe_eq M df hM, ?_, ?_, ?_, ?_⟩
  · rw [List.map_map]
    have hcong : (List.range (ceilDiv df.columns.length M)).map
        ((fun s : DataFrame × Nat × Nat => List.range' s.2.1 (s.2.2 + 1 - s.2.1)) ∘
          (fun k => sliceAt M df (k * M)))
        = (List.range (ceilDiv df.columns.length M)).map (fun k =>
            List.range' (0 + k * M)
              (min (0 + k * M + M) df.columns.length - (0 + k * M))) := by
      apply List.map_congr_left
      intro k hk
      rw [List.mem_range] at hk
      have hlt := mul_lt_of_lt_ceilDiv hM hk
      obtain ⟨hb1, hb2, hb3⟩ := min_bounds_of_lt hM hlt
      simp only [Function.comp, sliceAt, Nat.zero_add]
      congr 1
      omega
    rw [hcong, join_spans hM _ 0 (by simpa using le_ceilDiv_mul hM)]
    rw [Nat.sub_zero, ← List.range_eq_range']
  · intro i j hi hj hij
    simp only [List.length_map, List.length_range] at hi hj
    simp only [List.getElem_map, List.getElem_range, sliceAt]
    have hi' := mul_lt_of_lt_ceilDiv hM hi
    obtain ⟨hb1, hb2, hb3⟩ := min_bounds_of_lt hM hi'
    have hij' : i * M + M ≤ j * M := by
      have : (i + 1) * M ≤ j * M := Nat.mul_le_mul_right _ (by omega)
      calc i * M + M = (i + 1) * M := by ring
      _ ≤ j * M := this
    omega
  · intro k hk
    simp only [List.length_map, List.length_range] at hk
    simp only [List.getElem_map, List.getElem_range, sliceAt]
    have hlt := mul_lt_of_lt_ceilDiv hM hk
    have hexp : (k + 1) * M = k * M + M := by ring
    rw [hexp] at hlt
    have hmin : min (k * M + M) df.columns.length = k * M + M :=
      Nat.min_eq_left (by omega)
    rw [hmin]
    have hexp2 : (k + 1) * M = k * M + M := by ring
    omega
  · intro s hs
    rw [List.mem_map] at hs
    obtain ⟨k, hk, hfk⟩ := hs
    rw [List.mem_range] at hk
    have hlt := mul_lt_of_lt_ceilDiv hM hk
    obtain ⟨hb1, hb2, hb3⟩ := min_bounds_of_lt hM hlt
    subst hfk
    simp only [sliceAt, ilocCols]
    have hlen : min (k * M + M) df.columns.length - 1 + 1 - k * M
        = min (k * M + M) df.columns.length - k * M := by omega
    refine ⟨by simp, ?_, ?_⟩
    · rw [hlen]
    · rw [hlen]

/-- The statement of claim C2: `slice_dataframe` returns exactly
`ceil(C / M)` slices, the `k`-th (0-based) spanning columns
`[k*M, min((k+1)*M, C) - 1]`, and returns the empty list when `C = 0`. -/
def SliceCountProp (M : Nat) (df : DataFrame) : Prop :=
  ∃ l, slice_dataframe M df = some l ∧
    l.length = ceilDiv df.columns.length M ∧
    (∀ k, (hk : k < l.length) → l[k].2.1 = k * M ∧
      l[k].2.2 = min ((k + 1) * M) df.columns.length - 1) ∧
    (df.columns.length = 0 → l = [])

/-- C2: for every table with `C` columns and every `max_columns_per_page = M ≥ 1`,
`ColumnSlicer.slice_dataframe` returns exactly `ceil(C/M)` slices, the `k`-th
spanning `[k*M, min((k+1)*M, C) - 1]`, and an empty sequence (no error) when
`C = 0`. -/
theorem c2_slice_count_and_spans (M : Nat) (df : DataFrame) (hM : 1 ≤ M) :
    SliceCountProp M df := by
  refine ⟨_, slice_dataframe_eq M df hM, ?_, ?_, ?_⟩
  · simp
  · intro k hk
    have hexp : (k + 1) * M = k * M + M := by ring
    simp [List.getElem_map, List.getElem_range, sliceAt, hexp]
  · intro h0
    rw [h0, ceilDiv_zero_left hM]
    simp

/-- C10: for every table and every `max_columns_per_page = M ≥ 1`, the slicing
loop of `ColumnSlicer.slice_dataframe` terminates within `C` iterations (the
start index strictly increases on every iteration), so slicing is total under
the precondition `M ≥ 1`. -/
theorem c10_slice_terminates (M : Nat) (df : DataFrame) (hM : 1 ≤ M) :
    (slice_dataframe M df).isSome = true ∧
      (∀ start, start < df.columns.length →
        start < min (start + M) df.columns.length) := by
  constructor
  · rw [slice_dataframe_eq M df hM]
    rfl
  · intro start hs
    exact Nat.lt_min.mpr ⟨by omega, hs⟩

/-- A small sample table used to instantiate the hypothesis-bearing claims. -/
def dfSample : DataFrame :=
  { columns := ["A", "B", "C"]
  , rows := [[.intVal 1, .strVal "x", .na], [.intVal 2, .strVal "y|z", .boolVal true]] }

/-- Witness for C1 at `M = 2` and the concrete three-column table. -/
theorem c1_slice_roundtrip_witness : 1 ≤ 2 ∧ SliceRoundtripProp 2 dfSample :=
  ⟨by decide, c1_slice_roundtrip 2 dfSample (by decide)⟩

/-- Witness for C2 at `M = 2` and the concrete three-column table. -/
theorem c2_slice_count_and_spans_witness : 1 ≤ 2 ∧ SliceCountProp 2 dfSample :=
  ⟨by decide, c2_slice_count_and_spans 2 dfSample (by decide)⟩

/-- Witness for C10 at `M = 12` and the concrete three-column table. -/
theorem c10_slice_terminates_witness :
    1 ≤ 12 ∧ ((slice_dataframe 12 dfSample).isSome = true ∧
      (∀ start, start < dfSample.columns.length →
        start < min (start + 12) dfSample.columns.length)) :=
  ⟨by decide, c10_slice_terminates 12 dfSample (by decide)⟩

theorem getLast?_map_range {α : Type} (f : Nat → α) {n : Nat} (hn : 1 ≤ n) :
    ((List.range n).map f).getLast? = some (f (n - 1)) := by
  obtain ⟨m, rfl⟩ : ∃ m, n = m + 1 := ⟨n - 1, by omega⟩
  rw [List.range_succ, List.map_append]
  simp

theorem last_width {C M n : Nat} (hM : 1 ≤ M) (hC : 1 ≤ C) (hn : n = ceilDiv C M) :
    C - (n - 1) * M = (if C % M = 0 then M else C % M) := by
  have hn1 : 1 ≤ n := by
    rcases Nat.eq_zero_or_pos n with h0 | h1
    · exfalso
      have hcm := le_ceilDiv_mul (C := C) hM
      rw [← hn, h0] at hcm
      omega
    · exact h1
  have hlow : (n - 1) * M < C := by
    have hlt : n - 1 < ceilDiv C M := by omega
    exact mul_lt_of_lt_ceilDiv hM hlt
  have hhigh : C ≤ n * M := by rw [hn]; exact le_ceilDiv_mul hM
  have hqr := Nat.div_add_mod C M
  have hr : C % M < M := Nat.mod_lt _ (by omega)
  have hnm : (n - 1) * M + M = n * M := by
    obtain ⟨m, rfl⟩ : ∃ m, n = m + 1 := ⟨n - 1, by omega⟩
    show m * M + M = (m + 1) * M
    ring
  have hcomm : (C / M) * M = M * (C / M) := Nat.mul_comm _ _
  by_cases h0 : C % M = 0
  · rw [if_pos h0]
    have hq1 : n - 1 < C / M := by
      have h2 : (n - 1) * M < (C / M) * M := by omega
      exact lt_of_mul_lt_mul_right h2 (Nat.zero_le M)
    have hq2 : C / M ≤ n := by
      have h1 : (C / M) * M ≤ n * M := by omega
      exact Nat.le_of_mul_le_mul_right h1 (by omega)
    have hqn : C / M = n := by omega
    rw [hqn] at hcomm hqr
    omega
  · rw [if_neg h0]
    have hq2 : C / M < n := by
      have h1 : (C / M) * M < n * M := by omega
      exact lt_of_mul_lt_mul_right h1 (Nat.zero_le M)
    have hq3 : n - 1 < C / M + 1 := by
      have hx : (C / M + 1) * M = M * (C / M) + M := by ring
      have h1 : (n - 1) * M < (C / M + 1) * M := by omega
      exact lt_of_mul_lt_mul_right h1 (Nat.zero_le M)
    have hqn : n - 1 = C / M := by omega
    have ha : (n - 1) * M = M * (C / M) := by rw [hqn, Nat.mul_comm]
    omega

/-- A table with no columns (`len(df.columns) = 0`). -/
def dfNoCols : DataFrame := { columns := [], rows := [] }

/-- Counterexample to C3 as stated: for a zero-column table and the default
`max_columns_per_page = 12`, the claim asserts `last_page_columns = 0`, but
`get_slice_info` computes `total_columns % max or max`, which yields `12`. -/
theorem c3_last_page_zero_columns_cex :
    (get_slice_info 12 dfNoCols).last_page_columns = 12 ∧
      ¬ (get_slice_info 12 dfNoCols).last_page_columns = 0 := by decide

/-- The amended statement of claim C3: `get_slice_info` reports the table's
column count, the configured page width, `num_pages = ceil(C/M)` — which equals
the number of slices `slice_dataframe` actually produces (0 when `C = 0`) —
and `last_page_columns = C mod M` except that it equals `M` whenever the
remainder is 0, including when `C = 0`; for `C > 0` the value is exactly the
column count of the final emitted slice. -/
def SliceInfoProp (M : Nat) (df : DataFrame) : Prop :=
  (get_slice_info M df).total_columns = df.columns.length ∧
  (get_slice_info M df).max_columns_per_page = M ∧
  (∃ l, slice_dataframe M df = some l ∧ (get_slice_info M df).num_pages = l.length) ∧
  (df.columns.length = 0 → (get_slice_info M df).num_pages = 0 ∧
    (get_slice_info M df).last_page_columns = M) ∧
  (df.columns.length % M ≠ 0 →
    (get_slice_info M df).last_page_columns = df.columns.length % M) ∧
  (df.columns.length % M = 0 → (get_slice_info M df).last_page_columns = M) ∧
  (0 < df.columns.length → ∃ l s, slice_dataframe M df = some l ∧
    l.getLast? = some s ∧ s.1.columns.length = (get_slice_info M df).last_page_columns)

/-- C3 (amended): the slicing plan of `ColumnSlicer.get_slice_info` is
correct, with `last_page_columns = M` (not 0) in the zero-column case. -/
theorem c3_slice_info (M : Nat) (df : DataFrame) (hM : 1 ≤ M) :
    SliceInfoProp M df := by
  refine ⟨rfl, rfl, ?_, ?_, ?_, ?_, ?_⟩
  · exact ⟨_, slice_dataframe_eq M df hM, by simp [get_slice_info]⟩
  · intro h0
    simp [get_slice_info, h0, ceilDiv_zero_left hM]
  · intro hne
    simp [get_slice_info, hne]
  · intro heq
    simp [get_slice_info, heq]
  · intro hC
    refine ⟨_, _, slice_dataframe_eq M df hM,
      getLast?_map_range _ (?_ : 1 ≤ ceilDiv df.columns.length M), ?_⟩
    · rcases Nat.eq_zero_or_pos (ceilDiv df.columns.length M) with h0 | h1
      · exfalso
        have hcm := le_ceilDiv_mul (C := df.columns.length) hM
        rw [h0] at hcm
        omega
      · exact h1
    · have hn1 : 1 ≤ ceilDiv df.columns.length M := by
        rcases Nat.eq_zero_or_pos (ceilDiv df.columns.length M) with h0 | h1
        · exfalso
          have hcm := le_ceilDiv_mul (C := df.columns.length) hM
          rw [h0] at hcm
          omega
        · exact h1
      have hlow : (ceilDiv df.columns.length M - 1) * M < df.columns.length :=
        mul_lt_of_lt_ceilDiv hM (by omega)
      have hhigh : df.columns.length ≤ ceilDiv df.columns.length M * M :=
        le_ceilDiv_mul hM
      have hnm : (ceilDiv df.columns.length M - 1) * M + M
          = ceilDiv df.columns.length M * M := by
        obtain ⟨m, hm⟩ : ∃ m, ceilDiv df.columns.length M = m + 1 :=
          ⟨ceilDiv df.columns.length M - 1, by omega⟩
        rw [hm]
        show m * M + M = (m + 1) * M
        ring
      have hbmin : min ((ceilDiv df.columns.length M - 1) * M + M) df.columns.length
          = df.columns.length := Nat.min_eq_right (by omega)
      simp only [sliceAt, ilocCols, hbmin, List.length_take, List.length_drop]
      have hw := last_width hM hC (rfl : ceilDiv df.columns.length M = _)
      simp only [get_slice_info]
      omega

/-- Witness for C3 (amended) at `M = 2` and the concrete three-column table. -/
theorem c3_slice_info_witness : 1 ≤ 2 ∧ SliceInfoProp 2 dfSample :=
  ⟨by decide, c3_slice_info 2 dfSample (by decide)⟩

/-- The decimal digit character for `n ≤ 9`. -/
def digitChar (n : Nat) : Char := Char.ofNat (48 + n)

/-- Decimal digits (most significant first) of a natural number, with explicit
fuel for the repeated division by 10; `fuel = n + 1` always suffices. -/
def natDigitsAux : Nat → Nat → List Char
  | 0, _ => []
  | fuel + 1, n =>
    if n < 10 then [digitChar n]
    else natDigitsAux fuel (n / 10) ++ [digitChar (n % 10)]

/-- Python `str` of a nonnegative integer. -/
def natStr (n : Nat) : String := String.mk (natDigitsAux (n + 1) n)

/-- Python `str` of an int: optional minus sign followed by decimal digits. -/
def pyIntStr (n : ℤ) : String := (if n < 0 then "-" else "") ++ natStr n.natAbs

/-- The integer nearest `(100 * num) / den` with ties to even: the rounding
performed by Python's fixed-point formatting `f"{v:.2f}"`, applied to the exact
rational value `num / den` (with `den > 0`) scaled by 100. -/
def roundHalfEven100 (num : ℤ) (den : ℕ) : ℤ :=
  let n : ℤ := 100 * num
  let d : ℤ := (den : ℤ)
  let f : ℤ := Int.fdiv n d
  let r : ℤ := Int.fmod n d
  if 2 * r < d then f
  else if d < 2 * r then f + 1
  else if f % 2 = 0 then f else f + 1

/-- Python `f"{value:.2f}"` for the float with exact rational value `q`:
optional sign, integer part, decimal point, exactly two fractional digits. -/
def formatFixed2 (q : ℚ) : String :=
  let a : ℕ := (roundHalfEven100 q.num q.den).natAbs
  (if q.num < 0 then "-" else "") ++ natStr (a / 100) ++ "." ++
    String.mk [digitChar (a / 10 % 10), digitChar (a % 10)]

namespace MarkdownExporter

/-- `MarkdownExporter._format_cell` from `markdown_exporter.py`: missing value
→ `""`; float → integer text when the value equals its integer truncation
(exact test `value == int(value)`, i.e. `q.den = 1`), otherwise two-decimal
fixed-point text; any other value → its Python string form. -/
def _format_cell : CellValue → String
  | .na => ""
  | .floatVal q => if q.den = 1 then pyIntStr q.num else formatFixed2 q
  | .intVal n => pyIntStr n
  | .strVal s => s
  | .boolVal b => if b then "True" else "False"

end MarkdownExporter

namespace HTMLRenderer

/-- `HTMLRenderer._format_cell` from `html_renderer.py` (the same rules,
written out independently in that module). -/
def _format_cell : CellValue → String
  | .na => ""
  | .floatVal q => if q.den = 1 then pyIntStr q.num else formatFixed2 q
  | .intVal n => pyIntStr n
  | .strVal s => s
  | .boolVal b => if b then "True" else "False"

end HTMLRenderer

theorem digitChar_isDigit {n : Nat} (h : n < 10) : (digitChar n).isDigit = true := by
  interval_cases n <;> decide

theorem natDigitsAux_digits :
    ∀ fuel n c, c ∈ natDigitsAux fuel n → c.isDigit = true := by
  intro fuel
  induction fuel with
  | zero =>
    intro n c hc
    simp [natDigitsAux] at hc
  | succ fuel ih =>
    intro n c hc
    by_cases h : n < 10
    · simp only [natDigitsAux, if_pos h, List.mem_singleton] at hc
      subst hc
      exact digitChar_isDigit h
    · simp only [natDigitsAux, if_neg h, List.mem_append, List.mem_singleton] at hc
      rcases hc with hc | hc
      · exact ih _ _ hc
      · subst hc
        exact digitChar_isDigit (Nat.mod_lt _ (by omega))

theorem natStr_digits {n : Nat} {c : Char} (hc : c ∈ (natStr n).data) :
    c.isDigit = true :=
  natDigitsAux_digits _ _ _ hc

theorem pyIntStr_chars {n : ℤ} {c : Char} (hc : c ∈ (pyIntStr n).data) :
    c.isDigit = true ∨ c = '-' := by
  unfold pyIntStr at hc
  by_cases h : n < 0
  · rw [if_pos h, String.data_append] at hc
    rcases List.mem_append.mp hc with hc | hc
    · right
      have hdata : ("-" : String).data = ['-'] := rfl
      rw [hdata, List.mem_singleton] at hc
      exact hc
    · exact Or.inl (natStr_digits hc)
  · rw [if_neg h, String.data_append] at hc
    rcases List.mem_append.mp hc with hc | hc
    · exact absurd hc (by simp [String.data])
    · exact Or.inl (natStr_digits hc)

/-- C5: the Markdown exporter's and the HTML renderer's cell formatters are
extensionally equal: every cell value is rendered to identical display text
on both output paths. -/
theorem c5_format_cell_consistent :
    ∀ v : CellValue, MarkdownExporter._format_cell v = HTMLRenderer._format_cell v :=
  fun _ => rfl

/-- The statement of claim C4: the cell formatter returns the empty string
(never a "nan"/"null"/"None" token) for a missing value; integer text with no
decimal point for a mathematically integral float; a fixed two-decimal form
built only of sign/digit characters and one `.` (hence no scientific notation)
for a fractional float; and the natural string form of any other value.
Includes the spec's concrete scenarios `1234.0 ↦ "1234"`, `1234.5 ↦ "1234.50"`. -/
def FormatCellProp : Prop :=
  (MarkdownExporter._format_cell .na = "" ∧
    MarkdownExporter._format_cell .na ≠ "nan" ∧
    MarkdownExporter._format_cell .na ≠ "null" ∧
    MarkdownExporter._format_cell .na ≠ "None") ∧
  (∀ q : ℚ, q.den = 1 →
    MarkdownExporter._format_cell (.floatVal q) = pyIntStr q.num ∧
    ∀ c ∈ (MarkdownExporter._format_cell (.floatVal q)).data, c ≠ '.') ∧
  (∀ q : ℚ, q.den ≠ 1 → ∃ (intPart : String) (d₁ d₂ : Char),
    MarkdownExporter._format_cell (.floatVal q) = intPart ++ "." ++ String.mk [d₁, d₂] ∧
    d₁.isDigit = true ∧ d₂.isDigit = true ∧
    (∀ c ∈ intPart.data, c.isDigit = true ∨ c = '-')) ∧
  (∀ n : ℤ, MarkdownExporter._format_cell (.intVal n) = pyIntStr n) ∧
  (∀ s : String, MarkdownExporter._format_cell (.strVal s) = s) ∧
  (∀ b : Bool, MarkdownExporter._format_cell (.boolVal b) = if b then "True" else "False") ∧
  MarkdownExporter._format_cell (.floatVal 1234) = "1234" ∧
  MarkdownExporter._format_cell (.floatVal (mkRat 2469 2)) = "1234.50"

/-- C4: the cell formatter's rules, exactly as claimed. -/
theorem c4_format_cell_rules : FormatCellProp := by
  refine ⟨⟨rfl, by decide, by decide, by decide⟩, ?_, ?_, fun _ => rfl, fun _ => rfl,
    fun _ => rfl, by decide, by decide⟩
  · intro q h
    have heq : MarkdownExporter._format_cell (.floatVal q) = pyIntStr q.num := by
      show (if q.den = 1 then pyIntStr q.num else formatFixed2 q) = pyIntStr q.num
      rw [if_pos h]
    refine ⟨heq, ?_⟩
    intro c hc
    rw [heq] at hc
    rcases pyIntStr_chars hc with hd | hd
    · intro hdot
      subst hdot
      exact absurd hd (by decide)
    · subst hd
      decide
  · intro q h
    refine ⟨(if q.num < 0 then "-" else "") ++
        natStr ((roundHalfEven100 q.num q.den).natAbs / 100),
      digitChar ((roundHalfEven100 q.num q.den).natAbs / 10 % 10),
      digitChar ((roundHalfEven100 q.num q.den).natAbs % 10), ?_,
      digitChar_isDigit (Nat.mod_lt _ (by omega)),
      digitChar_isDigit (Nat.mod_lt _ (by omega)), ?_⟩
    · show (if q.den = 1 then pyIntStr q.num else formatFixed2 q) = _
      rw [if_neg h]
      rfl
    · intro c hc
      rw [String.data_append] at hc
      rcases List.mem_append.mp hc with hc | hc
      · by_cases hneg : q.num < 0
        · rw [if_pos hneg] at hc
          right
          have hdata : ("-" : String).data = ['-'] := rfl
          rw [hdata, List.mem_singleton] at hc
          exact hc
        · rw [if_neg hneg] at hc
          exact absurd hc (by simp [String.data])
      · exact Or.inl (natStr_digits hc)

/-- Witness for C4 at the concrete floats `1234.0` (integral) and `1234.5`
(fractional). -/
theorem c4_format_cell_rules_witness :
    ((1234 : ℚ).den = 1 ∧
      MarkdownExporter._format_cell (.floatVal 1234) = pyIntStr (1234 : ℚ).num) ∧
    ((mkRat 2469 2).den ≠ 1 ∧ ∃ (intPart : String) (d₁ d₂ : Char),
      MarkdownExporter._format_cell (.floatVal (mkRat 2469 2)) =
        intPart ++ "." ++ String.mk [d₁, d₂] ∧
      d₁.isDigit = true ∧ d₂.isDigit = true ∧
      (∀ c ∈ intPart.data, c.isDigit = true ∨ c = '-')) :=
  ⟨⟨by decide, (c4_format_cell_rules.2.1 1234 (by decide)).1⟩,
   by decide, c4_format_cell_rules.2.2.1 (mkRat 2469 2) (by decide)⟩

/-- Ordered concatenation of a list of strings. -/
def joinAll : List String → String
  | [] => ""
  | s :: rest => s ++ joinAll rest

theorem foldl_append_eq_joinAll {α : Type} (f : α → String) :
    ∀ (l : List α) (init : String),
      l.foldl (fun acc x => acc ++ f x) init = init ++ joinAll (l.map f) := by
  intro l
  induction l with
  | nil =>
    intro init
    simp [joinAll, String.append_empty]
  | cons a l ih =>
    intro init
    rw [List.foldl_cons, ih (init ++ f a), List.map_cons]
    show _ = init ++ (f a ++ joinAll (l.map f))
    rw [String.append_assoc]

/-- One scanning step of Python `str.replace`: walk the characters left to
right, replacing each non-overlapping occurrence of the (nonempty) pattern;
`fuel` bounds the number of steps, and the input length always suffices since
every step consumes at least one character. -/
def replaceCharsAux (pat rep : List Char) : Nat → List Char → List Char
  | 0, l => l
  | _ + 1, [] => []
  | fuel + 1, c :: rest =>
    if pat ≠ [] ∧ pat.isPrefixOf (c :: rest) = true then
      rep ++ replaceCharsAux pat rep fuel ((c :: rest).drop pat.length)
    else c :: replaceCharsAux pat rep fuel rest

/-- Python `s.replace(pat, rep)` for a nonempty pattern. -/
def pyReplace (s pat rep : String) : String :=
  String.mk (replaceCharsAux pat.data rep.data s.data.length s.data)

/-- `s.replace('|', '\\|')`: the pipe-escaping applied to headers and cells. -/
def escapePipes (s : String) : String := pyReplace s "|" "\\|"

/-- The header row of the pipe-delimited table, one escaped column name per cell. -/
def headerRow (df : DataFrame) : String :=
  "| " ++ String.intercalate " | " (df.columns.map escapePipes) ++ " |\n"

/-- The `---`-style separator row, one `---` per column. -/
def separatorRow (df : DataFrame) : String :=
  "| " ++ String.intercalate " | " (df.columns.map (fun _ => "---")) ++ " |\n"

/-- One data row: every cell passed through the cell formatter and then
pipe-escaped. -/
def dataRow (row : List CellValue) : String :=
  "| " ++ String.intercalate " | "
    (row.map (fun v => escapePipes (MarkdownExporter._format_cell v))) ++ " |\n"

/-- The `output` section of the configuration: the optional page-label
template (`page_label_format`). -/
structure OutputConfig where
  page_label_format : Option String
deriving DecidableEq

/-- The default page-label template of `dataframe_to_markdown`. -/
def defaultPageLabel : String := "Page {page_num} – Columns {start_col}-{end_col}"

/-- `template.format(page_num=…, start_col=…, end_col=…)`: each placeholder
replaced by the decimal form of its argument. -/
def formatPageLabel (tmpl : String) (page_num start_col end_col : Nat) : String :=
  pyReplace (pyReplace (pyReplace tmpl
    "{page_num}" (natStr page_num))
    "{start_col}" (natStr start_col))
    "{end_col}" (natStr end_col)

namespace MarkdownExporter

/-- `MarkdownExporter._manual_markdown_conversion` (without the optional
DataFrame index, `include_index = False` as in every call site): escaped
header row, separator row, then one formatted and escaped row per table row,
accumulated by string concatenation. -/
def _manual_markdown_conversion (df : DataFrame) : String :=
  let headers := df.columns.map (fun h => pyReplace h "|" "\\|")
  let md := "| " ++ String.intercalate " | " headers ++ " |\n"
  let md := md ++ ("| " ++ String.intercalate " | "
    (headers.map (fun _ => "---")) ++ " |\n")
  df.rows.foldl (fun acc row =>
    acc ++ ("| " ++ String.intercalate " | "
      ((row.map MarkdownExporter._format_cell).map (fun s => pyReplace s "|" "\\|"))
      ++ " |\n")) md

/-- `MarkdownExporter.dataframe_to_markdown`: page-label heading from the
configured template (default `defaultPageLabel`), a metadata line, a
horizontal rule, the table text, and a trailing horizontal rule.  The pandas
`DataFrame.to_markdown` bound method is an external collaborator, passed in
as `to_markdown`: `some f` embeds a pandas that has the method (the primary
`try` branch, whose table text is whatever the external library returns),
`none` embeds the `AttributeError` of an older pandas, on which the
repository's own `_manual_markdown_conversion` fallback runs. -/
def dataframe_to_markdown (to_markdown : Option (DataFrame → String))
    (cfg : OutputConfig) (df : DataFrame)
    (page_num start_col end_col : Nat) : String :=
  let page_label := formatPageLabel (cfg.page_label_format.getD defaultPageLabel)
    page_num start_col end_col
  let markdown := "# " ++ page_label ++ "\n\n"
  let markdown := markdown ++ ("**Page:** " ++ natStr page_num ++ " | **Columns:** "
    ++ natStr start_col ++ " to " ++ natStr end_col ++ "\n\n")
  let markdown := markdown ++ "---\n\n"
  let table_md := match to_markdown with
    | some f => f df
    | none => _manual_markdown_conversion df
  let markdown := markdown ++ table_md
  markdown ++ "\n\n---\n\n"

end MarkdownExporter

/-- The heading-and-metadata envelope every rendered page starts with:
templated page-label heading, metadata line, horizontal rule. -/
def pageEnvelope (cfg : OutputConfig) (p s e : Nat) : String :=
  "# " ++ formatPageLabel (cfg.page_label_format.getD defaultPageLabel) p s e
    ++ "\n\n"
    ++ ("**Page:** " ++ natStr p ++ " | **Columns:** " ++ natStr s ++ " to "
      ++ natStr e ++ "\n\n")
    ++ "---\n\n"

theorem manual_conversion_eq (df : DataFrame) :
    MarkdownExporter._manual_markdown_conversion df
      = headerRow df ++ separatorRow df ++ joinAll (df.rows.map dataRow) := by
  unfold MarkdownExporter._manual_markdown_conversion
  rw [foldl_append_eq_joinAll]
  have hsep : (df.columns.map (fun h => pyReplace h "|" "\\|")).map (fun _ => "---")
      = df.columns.map (fun _ => "---") := by
    rw [List.map_map]
    rfl
  rw [hsep]
  have hrows : df.rows.map (fun row =>
      "| " ++ String.intercalate " | "
        ((row.map MarkdownExporter._format_cell).map (fun s => pyReplace s "|" "\\|"))
        ++ " |\n") = df.rows.map dataRow := by
    apply List.map_congr_left
    intro r _
    unfold dataRow escapePipes
    rw [List.map_map]
    rfl
  rw [hrows]
  rfl

/-- A single-column table whose only cell is a missing value (NaN). -/
def dfNaN : DataFrame := { columns := ["A"], rows := [[.na]] }

/-- A representative of the external pandas `DataFrame.to_markdown` bound
method applied to `dfNaN`: tabulate renders the missing float cell as the
literal token `nan` and applies neither the repository's cell formatter nor
its pipe escaping.  Only that token matters for the refutation below;
alignment whitespace is immaterial. -/
def pandasToMarkdownNaN : DataFrame → String := fun _ => "| A   |\n|----:|\n| nan |"

/-- Counterexample to C6 as stated: on the primary branch — pandas provides
`to_markdown`, true of every pandas since 1.0 — the table section of
`dataframe_to_markdown` is the external helper's text, in which the missing
cell reads `nan` rather than the cell formatter's empty string and no pipe
escaping happens, so the output is not the claimed
header/separator/formatted-rows structure. -/
theorem c6_primary_path_cex :
    MarkdownExporter.dataframe_to_markdown (some pandasToMarkdownNaN) ⟨none⟩
        dfNaN 1 0 0
      ≠ pageEnvelope ⟨none⟩ 1 0 0
        ++ (headerRow dfNaN ++ separatorRow dfNaN ++ joinAll (dfNaN.rows.map dataRow))
        ++ "\n\n---\n\n" := by decide

/-- The amended statement of claim C6: the rendering always emits the
heading/metadata/rule envelope and the trailing rule; the table text in
between is, on the primary branch (pandas provides `DataFrame.to_markdown`),
the external helper's output verbatim — cells do not pass through the cell
formatter there and pipes are not escaped — and only on the `AttributeError`
fallback branch is it the repository's own pipe-delimited table: header row,
`---` separator row, one row per table row with every cell formatted and
pipe-escaped, a zero-row slice still yielding header and separator. -/
theorem c6_markdown_structure (ext : Option (DataFrame → String))
    (cfg : OutputConfig) (df : DataFrame) (p s e : Nat) :
    (∀ f, ext = some f →
      MarkdownExporter.dataframe_to_markdown ext cfg df p s e
        = pageEnvelope cfg p s e ++ f df ++ "\n\n---\n\n") ∧
    (ext = none →
      MarkdownExporter.dataframe_to_markdown ext cfg df p s e
        = pageEnvelope cfg p s e
          ++ (headerRow df ++ separatorRow df ++ joinAll (df.rows.map dataRow))
          ++ "\n\n---\n\n") ∧
    (df.rows = [] →
      MarkdownExporter._manual_markdown_conversion df
        = headerRow df ++ separatorRow df) := by
  refine ⟨?_, ?_, ?_⟩
  · intro f hf
    subst hf
    rfl
  · intro hnone
    subst hnone
    show pageEnvelope cfg p s e ++ MarkdownExporter._manual_markdown_conversion df
        ++ "\n\n---\n\n" = _
    rw [manual_conversion_eq]
  · intro h0
    rw [manual_conversion_eq, h0]
    show (headerRow df ++ separatorRow df) ++ joinAll []
        = headerRow df ++ separatorRow df
    rw [show joinAll [] = "" from rfl, String.append_empty]

/-- A table with two columns and no data rows. -/
def dfNoRows : DataFrame := { columns := ["A", "B"], rows := [] }

/-- Witness for C6 (amended) at concrete inputs: the primary branch with the
pandas representative on the NaN table, the fallback branch on a zero-row
table, and the degenerate empty-slice case. -/
theorem c6_markdown_structure_witness :
    ((some pandasToMarkdownNaN : Option (DataFrame → String))
        = some pandasToMarkdownNaN ∧
      MarkdownExporter.dataframe_to_markdown (some pandasToMarkdownNaN) ⟨none⟩
          dfNaN 1 0 0
        = pageEnvelope ⟨none⟩ 1 0 0 ++ pandasToMarkdownNaN dfNaN ++ "\n\n---\n\n") ∧
    ((none : Option (DataFrame → String)) = none ∧
      MarkdownExporter.dataframe_to_markdown none ⟨none⟩ dfNoRows 1 0 1
        = pageEnvelope ⟨none⟩ 1 0 1
          ++ (headerRow dfNoRows ++ separatorRow dfNoRows
            ++ joinAll (dfNoRows.rows.map dataRow))
          ++ "\n\n---\n\n") ∧
    (dfNoRows.rows = [] ∧
      MarkdownExporter._manual_markdown_conversion dfNoRows
        = headerRow dfNoRows ++ separatorRow dfNoRows) :=
  ⟨⟨rfl, (c6_markdown_structure (some pandasToMarkdownNaN) ⟨none⟩ dfNaN 1 0 0).1
      pandasToMarkdownNaN rfl⟩,
   ⟨rfl, (c6_markdown_structure none ⟨none⟩ dfNoRows 1 0 1).2.1 rfl⟩,
   rfl, (c6_markdown_structure none ⟨none⟩ dfNoRows 1 0 1).2.2 rfl⟩

/-- A file system snapshot: maps a path to the file's contents when the file
exists, `none` when it is missing. -/
def FileSystem : Type := String → Option String

/-- The banner prefix written by `combine_markdown_files` for `n` given input
paths: `len(markdown_paths)` is interpolated into the page-count sentence. -/
def combinedBanner (n : Nat) : String :=
  "# Combined Excel Data Export\n\n"
    ++ ("This document contains " ++ natStr n ++ " pages of data.\n\n")
    ++ "---\n\n"

namespace MarkdownExporter

/-- `MarkdownExporter.combine_markdown_files`: builds the banner from the
number of given paths, then walks the paths in order, skipping (with a logged
warning) every path whose file does not exist and appending the contents of
each existing file followed by a blank line; returns `True` (success). -/
def combine_markdown_files (fs : FileSystem) (markdown_paths : List String) :
    Bool × String :=
  let combined := combinedBanner markdown_paths.length
  let combined := markdown_paths.foldl (fun acc p =>
    match fs p with
    | none => acc
    | some content => acc ++ (content ++ "\n\n")) combined
  (true, combined)

end MarkdownExporter

namespace PDFExporter

/-- `PDFExporter.combine_pdfs`: appends each existing input file to the
merger in the given order, skipping (with a logged warning) missing files;
the combined document is the ordered list of merged page contents; returns
`True` (success). -/
def combine_pdfs (fs : FileSystem) (pdf_paths : List String) :
    Bool × List String :=
  let merged := pdf_paths.foldl (fun acc p =>
    match fs p with
    | none => acc
    | some doc => acc ++ [doc]) ([] : List String)
  (true, merged)

end PDFExporter

theorem foldl_skip_eq_joinAll (fs : FileSystem) :
    ∀ (paths : List String) (init : String),
      paths.foldl (fun acc p =>
        match fs p with
        | none => acc
        | some content => acc ++ (content ++ "\n\n")) init
      = init ++ joinAll ((paths.filterMap fs).map (fun c => c ++ "\n\n")) := by
  intro paths
  induction paths with
  | nil =>
    intro init
    simp [joinAll, String.append_empty]
  | cons p rest ih =>
    intro init
    rw [List.foldl_cons, List.filterMap_cons]
    cases hfs : fs p with
    | none =>
      simp only [hfs]
      exact ih init
    | some content =>
      simp only [hfs]
      rw [ih (init ++ (content ++ "\n\n")), List.map_cons]
      show _ = init ++ ((content ++ "\n\n") ++ joinAll _)
      rw [String.append_assoc]

theorem foldl_skip_eq_filterMap (fs : FileSystem) :
    ∀ (paths : List String) (init : List String),
      paths.foldl (fun acc p =>
        match fs p with
        | none => acc
        | some doc => acc ++ [doc]) init
      = init ++ paths.filterMap fs := by
  intro paths
  induction paths with
  | nil =>
    intro init
    simp
  | cons p rest ih =>
    intro init
    rw [List.foldl_cons, List.filterMap_cons]
    cases hfs : fs p with
    | none =>
      simp only [hfs]
      exact ih init
    | some doc =>
      simp only [hfs]
      rw [ih (init ++ [doc]), List.append_assoc]
      rfl

/-- A file system holding the first and third of three page artifacts;
`page_2.md` is missing at combine time. -/
def fsTwoOfThree : FileSystem := fun p =>
  if p = "page_1.md" then some "PAGE ONE"
  else if p = "page_3.md" then some "PAGE THREE"
  else none

/-- Counterexample to C7 as stated: with three requested artifact paths of
which one is missing, the claim (via the spec's scenario "total page count
reflects only available pages") requires the banner to state the number of
available artifacts (2); the code interpolates `len(markdown_paths)` (3), so
the combined text is not the available-count banner followed by the two
surviving contents. -/
theorem c7_banner_counts_missing_cex :
    (["page_1.md", "page_2.md", "page_3.md"].filterMap fsTwoOfThree).length = 2 ∧
    (MarkdownExporter.combine_markdown_files fsTwoOfThree
        ["page_1.md", "page_2.md", "page_3.md"]).2
      ≠ combinedBanner
          (["page_1.md", "page_2.md", "page_3.md"].filterMap fsTwoOfThree).length
        ++ joinAll ((["page_1.md", "page_2.md", "page_3.md"].filterMap
            fsTwoOfThree).map (fun c => c ++ "\n\n")) := by
  constructor
  · decide
  · decide

/-- The amended statement of claim C7: both combiners always report success;
missing artifacts are skipped and the combined output contains exactly the
contents of the existing artifacts in the given page order; the Markdown
banner states the number of requested paths (missing files included), not the
number of available pages. -/
def CombineSkipProp (fs : FileSystem) (paths : List String) : Prop :=
  (MarkdownExporter.combine_markdown_files fs paths).1 = true ∧
  (MarkdownExporter.combine_markdown_files fs paths).2
    = combinedBanner paths.length
      ++ joinAll ((paths.filterMap fs).map (fun c => c ++ "\n\n")) ∧
  (PDFExporter.combine_pdfs fs paths).1 = true ∧
  (PDFExporter.combine_pdfs fs paths).2 = paths.filterMap fs

/-- C7 (amended): the combiners skip missing artifacts without failing and
keep the given order; the Markdown banner counts the requested paths. -/
theorem c7_combine_skips_missing (fs : FileSystem) (paths : List String) :
    CombineSkipProp fs paths := by
  refine ⟨rfl, ?_, rfl, ?_⟩
  · show paths.foldl _ (combinedBanner paths.length) = _
    exact foldl_skip_eq_joinAll fs paths (combinedBanner paths.length)
  · show paths.foldl _ ([] : List String) = _
    rw [foldl_skip_eq_filterMap fs paths []]
    rfl

/-- The result dictionary of `ExcelToPDFPipeline.process` (the fields the
orchestration claims concern). -/
structure ProcessResult where
  success : Bool
  error : Option String
  total_pages : Nat
  individual_pdfs : List String
  combined_pdf : Option String
deriving DecidableEq

/-- The pipeline's collaborators and configuration: `readExcel` either yields
a table or fails with a message; `renderExport` renders and exports one slice
(page number, slice triple), yielding the written PDF path or failing; the
`combine_pdfs` flag of the output configuration. -/
structure PipelineEnv where
  max_columns_per_page : Nat
  combine_pdfs_enabled : Bool
  readExcel : Except String DataFrame
  renderExport : Nat → DataFrame × Nat × Nat → Except String String

namespace ExcelToPDFPipeline

/-- `ExcelToPDFPipeline.process`: a failure while reading the table is caught
by the outer handler and returned as `{'success': False, 'error': str(e)}`;
otherwise the table is sliced, each slice is processed independently — the
exported path is appended on success, the slice is skipped (`continue`) on
failure — PDFs are combined when configured and at least one page succeeded,
and the success result reports `total_pages = len(pdf_paths)`. -/
def process (env : PipelineEnv) : ProcessResult :=
  match env.readExcel with
  | .error e =>
    { success := false, error := some e, total_pages := 0
    , individual_pdfs := [], combined_pdf := none }
  | .ok df =>
    let slices := (slice_dataframe env.max_columns_per_page df).getD []
    let pdf_paths := (List.enumFrom 1 slices).foldl (fun acc x =>
      match env.renderExport x.1 x.2 with
      | .ok path => acc ++ [path]
      | .error _ => acc) []
    let combined := if env.combine_pdfs_enabled ∧ 0 < pdf_paths.length
      then some "combined_output.pdf" else none
    { success := true, error := none, total_pages := pdf_paths.length
    , individual_pdfs := pdf_paths, combined_pdf := combined }

end ExcelToPDFPipeline

theorem foldl_renderExport_eq_filterMap
    (re : Nat → DataFrame × Nat × Nat → Except String String) :
    ∀ (l : List (Nat × (DataFrame × Nat × Nat))) (init : List String),
      l.foldl (fun acc x =>
        match re x.1 x.2 with
        | .ok path => acc ++ [path]
        | .error _ => acc) init
      = init ++ l.filterMap (fun x => (re x.1 x.2).toOption) := by
  intro l
  induction l with
  | nil =>
    intro init
    simp
  | cons a l ih =>
    intro init
    rw [List.foldl_cons, List.filterMap_cons]
    cases hre : re a.1 a.2 with
    | error e =>
      simp only [hre, Except.toOption]
      exact ih init
    | ok path =>
      simp only [hre, Except.toOption]
      rw [ih (init ++ [path]), List.append_assoc]
      rfl

theorem process_ok_eq (env : PipelineEnv) (df : DataFrame)
    (l : List (DataFrame × Nat × Nat)) (hdf : env.readExcel = .ok df)
    (hl : slice_dataframe env.max_columns_per_page df = some l) :
    ExcelToPDFPipeline.process env =
      { success := true
      , error := none
      , total_pages := ((List.enumFrom 1 l).filterMap
          (fun x => (env.renderExport x.1 x.2).toOption)).length
      , individual_pdfs := (List.enumFrom 1 l).filterMap
          (fun x => (env.renderExport x.1 x.2).toOption)
      , combined_pdf := if env.combine_pdfs_enabled ∧
            0 < ((List.enumFrom 1 l).filterMap
              (fun x => (env.renderExport x.1 x.2).toOption)).length
          then some "combined_output.pdf" else none } := by
  unfold ExcelToPDFPipeline.process
  simp only [hdf]
  rw [hl]
  simp only [Option.getD_some]
  simp only [foldl_renderExport_eq_filterMap, List.nil_append]

theorem process_error_eq (env : PipelineEnv) (e : String)
    (he : env.readExcel = .error e) :
    ExcelToPDFPipeline.process env =
      { success := false, error := some e, total_pages := 0
      , individual_pdfs := [], combined_pdf := none } := by
  unfold ExcelToPDFPipeline.process
  simp only [he]

/-- The statement of claim C8: when the table reads successfully the run
always succeeds — every slice is attempted in order, failed slices are
skipped, and `total_pages` counts exactly the slices whose render/export
succeeded; when reading fails, the result is a failed run carrying the
descriptive error text; and a failed run can only arise from a read failure. -/
def ProcessProp (env : PipelineEnv) : Prop :=
  (∀ df, env.readExcel = .ok df →
    (ExcelToPDFPipeline.process env).success = true ∧
    ∃ l, slice_dataframe env.max_columns_per_page df = some l ∧
      (ExcelToPDFPipeline.process env).individual_pdfs
        = (List.enumFrom 1 l).filterMap
            (fun x => (env.renderExport x.1 x.2).toOption) ∧
      (ExcelToPDFPipeline.process env).total_pages
        = ((List.enumFrom 1 l).filterMap
            (fun x => (env.renderExport x.1 x.2).toOption)).length) ∧
  (∀ e, env.readExcel = .error e →
    (ExcelToPDFPipeline.process env).success = false ∧
    (ExcelToPDFPipeline.process env).error = some e) ∧
  ((ExcelToPDFPipeline.process env).success = false →
    ∃ e, env.readExcel = .error e)

/-- C8: in the orchestrator, per-slice failures are caught and skipped while
all remaining slices are processed; the aggregated result is a success whose
`total_pages` is the number of slices that succeeded; only a table-read
failure yields a failed-run result, which carries a descriptive reason. -/
theorem c8_process_skips_failed_slices (env : PipelineEnv)
    (hM : 1 ≤ env.max_columns_per_page) : ProcessProp env := by
  refine ⟨?_, ?_, ?_⟩
  · intro df hdf
    have hl := slice_dataframe_eq env.max_columns_per_page df hM
    rw [process_ok_eq env df _ hdf hl]
    exact ⟨rfl, _, hl, rfl, rfl⟩
  · intro e he
    rw [process_error_eq env e he]
    exact ⟨rfl, rfl⟩
  · intro hfail
    cases hre : env.readExcel with
    | error e => exact ⟨e, rfl⟩
    | ok df =>
      exfalso
      have hl := slice_dataframe_eq env.max_columns_per_page df hM
      rw [process_ok_eq env df _ hre hl] at hfail
      exact Bool.noConfusion hfail

/-- A table with two columns and one row. -/
def dfTwoCols : DataFrame := { columns := ["A", "B"], rows := [[.intVal 1, .na]] }

/-- A pipeline environment whose table has two columns (sliced at width 1
into two pages) and whose render/export fails on page 1 and succeeds on
page 2. -/
def envSample : PipelineEnv :=
  { max_columns_per_page := 1
  , combine_pdfs_enabled := true
  , readExcel := .ok dfTwoCols
  , renderExport := fun n _ =>
      if n = 1 then .error "render failed" else .ok ("page_" ++ natStr n ++ ".pdf") }

/-- Witness for C8 at the concrete environment with one failing slice. -/
theorem c8_process_skips_failed_slices_witness :
    1 ≤ envSample.max_columns_per_page ∧ ProcessProp envSample :=
  ⟨by decide, c8_process_skips_failed_slices envSample (by decide)⟩

/-- A one-column table. -/
def dfOneCol : DataFrame := { columns := ["A"], rows := [[.strVal "x"]] }

/-- C9 (code-bug evidence): no code path rejects a non-positive
`max_columns_per_page` — `ColumnSlicer.__init__` stores it unchecked and no
`InvalidConfiguration` error exists — and with `max_columns_per_page = 0` the
slicing loop on a one-column table never finishes within any number of
iterations (the start index does not advance), so slicing is in fact reached
with a non-positive page width and diverges instead of failing fast. -/
theorem c9_nonpositive_width_not_rejected :
    (∀ fuel : Nat, sliceLoop 0 dfOneCol fuel 0 = none) ∧
      slice_dataframe 0 dfOneCol = none := by
  have hloop : ∀ fuel : Nat, sliceLoop 0 dfOneCol fuel 0 = none := by
    intro fuel
    induction fuel with
    | zero => rfl
    | succ fuel ih =>
      have hstep : sliceLoop 0 dfOneCol (fuel + 1) 0
          = (sliceLoop 0 dfOneCol fuel 0).map
            (fun rest => sliceAt 0 dfOneCol 0 :: rest) := rfl
      rw [hstep, ih]
      rfl
  exact ⟨hloop, hloop 1⟩
